import Mathlib

/-!
Shallow embedding of the dashboard_dials repository core: value smoothing,
angle mapping, the engine-power custom element's value paths, the
store-to-frame coalescing logic, the instrument setup/teardown lifecycles,
and the two reactive store variants.  JavaScript numbers are modelled as
rationals (`ℚ`); where non-finite values (NaN / Infinity) are observable in
the code paths under study, a dedicated `JSNum` type with explicit `nan`,
`inf` and `ninf` constructors is used instead.
-/

/-! ## Value smoothing

From `SpeedometerObserved.tsx` (SpeedometerView tick, ease 0.12, epsilon
guard `Math.abs(d) > epsilon`) and from `part_006` (EngineSpeedElement
ticker callback, ease 0.15, no guard).  The generic recurrence
`display += (target - display) * damping` is `smootherStep`. -/

/-- One application of the smoother recurrence
`display += (target - display) * damping`. -/
def smootherStep (target damping display : ℚ) : ℚ :=
  display + (target - display) * damping

/-- The display value after `n` ticks of the smoother recurrence with a
fixed target. -/
def smootherIter (target damping display : ℚ) : ℕ → ℚ
  | 0 => display
  | n + 1 => smootherStep target damping (smootherIter target damping display n)

/-- State of the SpeedometerView animation: the eased current angle, the
target angle, and a running count of draw calls issued. -/
structure SVState where
  current : ℚ
  target : ℚ
  drawCalls : ℕ
  deriving DecidableEq

/-- Ease factor of the SpeedometerView ticker (`const ease = 0.12`). -/
def svEase : ℚ := 12 / 100

/-- The SpeedometerView ticker callback: `d = target - current`; when
`Math.abs(d) > epsilon` it eases `current` by `d * ease` and redraws the
needle and the progress arc (two draw calls); otherwise it does nothing. -/
def svTick (epsilon : ℚ) (st : SVState) : SVState :=
  if epsilon < |st.target - st.current| then
    { st with current := st.current + (st.target - st.current) * svEase,
              drawCalls := st.drawCalls + 2 }
  else st

/-- State of the EngineSpeedElement animation (`part_006`): current needle
angle, target angle, and a running count of draw calls issued. -/
structure ESTickState where
  currentAngle : ℚ
  targetAngle : ℚ
  drawCalls : ℕ
  deriving DecidableEq

/-- Ease factor of the EngineSpeedElement ticker (`const ease = 0.15`). -/
def esEase : ℚ := 15 / 100

/-- The EngineSpeedElement ticker callback (`part_006` lines 77-83): it
unconditionally eases `currentAngle` toward `targetAngle` and then calls
`#updateProgressArc` and `#updateNeedle` (two draw calls), with no epsilon
guard of any kind. -/
def esTicker (st : ESTickState) : ESTickState :=
  { st with
    currentAngle := st.currentAngle + (st.targetAngle - st.currentAngle) * esEase,
    drawCalls := st.drawCalls + 2 }

/-! ## Angle mapping

`mapSpeedToAngle` is from `Speedometer.tsx` / `SpeedometerView.tsx`
(constants MIN=0, MAX=130, MIN_DEG=-220, MAX_DEG=40).  `valueToAngleDeg`
is the degree-valued part of `valueToAngle` from `part_008` (lines
109-112); the source multiplies the result by `Math.PI / 180` to obtain
radians, a positive constant factor that preserves interval membership and
monotonicity.  The same degree formula appears in `#setTargetFromSpeed`
of `part_005` / `part_006`. -/

/-- The speed-to-angle map of the Speedometer components:
`t = Math.max(0, Math.min(1, (v - MIN) / (MAX - MIN)))`,
result `MIN_DEG + t * (MAX_DEG - MIN_DEG)` with MIN=0, MAX=130,
MIN_DEG=-220, MAX_DEG=40. -/
def mapSpeedToAngle (v : ℚ) : ℚ :=
  (-220) + max 0 (min 1 ((v - 0) / (130 - 0))) * (40 - (-220))

/-- The degree-valued part of `valueToAngle` from `part_008`:
`t = (Math.min(max, Math.max(min, v)) - min) / Math.max(1e-6, max - min)`,
result `minDeg + (maxDeg - minDeg) * t`. -/
def valueToAngleDeg (v mn mx minDeg maxDeg : ℚ) : ℚ :=
  minDeg + (maxDeg - minDeg) * ((min mx (max mn v) - mn) / max (1 / 1000000) (mx - mn))

/-! ## The reactive stores

`Store.ts` (class `DashboardStore`, initial power 2, `clampPower`) and
`part_009` (class `DashboardStore`, initial power 0, `normalizePower`
with `toFixed(1)`, derived `speed`, accumulated `distance`). -/

/-- Clamp of `Store.ts`: `Math.min(MAX_POWER, Math.max(0, Number(n)))`
with `MAX_POWER = 6`. -/
def clampPower (n : ℚ) : ℚ := min 6 (max 0 n)

/-- State of the `Store.ts` store: just the observable `power` field
(speed and distance there are computed getters, not stored). -/
structure StoreTSState where
  power : ℚ
  deriving DecidableEq

/-- Initial `Store.ts` state: `power = 2`. -/
def storeTSInit : StoreTSState := ⟨2⟩

/-- The mutating actions of `Store.ts`: `setPower`, `incPower`, `decPower`
(the latter two call `setPower(this.power ± delta)`). -/
inductive StoreTSOp where
  | setPower (n : ℚ)
  | incPower (delta : ℚ)
  | decPower (delta : ℚ)

/-- One `Store.ts` action application. -/
def applyStoreTS (st : StoreTSState) : StoreTSOp → StoreTSState
  | .setPower n => ⟨clampPower n⟩
  | .incPower d => ⟨clampPower (st.power + d)⟩
  | .decPower d => ⟨clampPower (st.power - d)⟩

/-- The `Store.ts` state after a sequence of actions from the initial
state. -/
def storeTSRun (ops : List StoreTSOp) : StoreTSState :=
  ops.foldl applyStoreTS storeTSInit

/-- JavaScript `x.toFixed(1)` re-parsed by `Number(...)`: round to the
nearest tenth, ties toward the larger value. -/
def toFixed1 (x : ℚ) : ℚ := (⌊10 * x + 1 / 2⌋ : ℚ) / 10

/-- JavaScript `Math.round`: round to the nearest integer, ties toward
positive infinity, i.e. `⌊x + 1/2⌋`. -/
def jsRound (x : ℚ) : ℚ := (⌊x + 1 / 2⌋ : ℚ)

/-- Normalization of `part_009`: clamp to `[0, MAX_POWER]` then round to
one decimal via `Number(clamped.toFixed(1))`. -/
def normalizePower (n : ℚ) : ℚ := toFixed1 (min 6 (max 0 n))

/-- State of the `part_009` store: observable `speed`, `power` and
`distance` fields. -/
structure DashState where
  speed : ℚ
  power : ℚ
  distance : ℚ
  deriving DecidableEq

/-- Initial `part_009` state: all three fields 0. -/
def dashInit : DashState := ⟨0, 0, 0⟩

/-- `syncSpeed` of `part_009`: `speed = Math.round((power / MAX_POWER) *
MAX_SPEED)` with MAX_POWER = 6 and MAX_SPEED = 130. -/
def syncSpeed (st : DashState) : DashState :=
  { st with speed := jsRound (st.power / 6 * 130) }

/-- The mutating actions of the `part_009` store. -/
inductive DashOp where
  | inc (step : ℚ)
  | dec (step : ℚ)
  | setPower (n : ℚ)
  | tick (dtMs : ℚ)

/-- One `part_009` action application; `tick` adds
`speed * (dtMs / 3_600_000)` to `distance` and touches nothing else. -/
def applyDash (st : DashState) : DashOp → DashState
  | .inc s => syncSpeed { st with power := normalizePower (st.power + s) }
  | .dec s => syncSpeed { st with power := normalizePower (st.power - s) }
  | .setPower n => syncSpeed { st with power := normalizePower n }
  | .tick dt => { st with distance := st.distance + st.speed * (dt / 3600000) }

/-- The `part_009` store state after a sequence of actions from the
initial state. -/
def dashRun (ops : List DashOp) : DashState :=
  ops.foldl applyDash dashInit

/-! ### Helper lemmas for the store invariants -/

/-- The `Store.ts` clamp lands in `[0, 6]`. -/
theorem clampPower_mem (n : ℚ) : 0 ≤ clampPower n ∧ clampPower n ≤ 6 := by
  unfold clampPower
  constructor
  · exact le_min (by norm_num) (le_max_left 0 n)
  · exact min_le_left 6 _

/-- Rounding to one decimal maps `[0, 6]` into itself. -/
theorem toFixed1_mem {x : ℚ} (h0 : 0 ≤ x) (h6 : x ≤ 6) :
    0 ≤ toFixed1 x ∧ toFixed1 x ≤ 6 := by
  unfold toFixed1
  have hlo : (0 : ℤ) ≤ ⌊10 * x + 1 / 2⌋ := Int.le_floor.mpr (by push_cast; linarith)
  have hhi : ⌊10 * x + 1 / 2⌋ ≤ (60 : ℤ) := by
    have h : ⌊10 * x + 1 / 2⌋ < 61 := Int.floor_lt.mpr (by push_cast; linarith)
    omega
  have hlo' : (0 : ℚ) ≤ (⌊10 * x + 1 / 2⌋ : ℚ) := by exact_mod_cast hlo
  have hhi' : ((⌊10 * x + 1 / 2⌋ : ℚ)) ≤ 60 := by exact_mod_cast hhi
  constructor <;> linarith

/-- The `part_009` normalization lands in `[0, 6]`. -/
theorem normalizePower_mem (n : ℚ) :
    0 ≤ normalizePower n ∧ normalizePower n ≤ 6 := by
  unfold normalizePower
  exact toFixed1_mem (le_min (by norm_num) (le_max_left 0 n)) (min_le_left 6 _)

theorem storeTS_inv (ops : List StoreTSOp) :
    0 ≤ (storeTSRun ops).power ∧ (storeTSRun ops).power ≤ 6 := by
  unfold storeTSRun
  have H : ∀ (l : List StoreTSOp) (st : StoreTSState),
      0 ≤ st.power ∧ st.power ≤ 6 →
      0 ≤ (l.foldl applyStoreTS st).power ∧ (l.foldl applyStoreTS st).power ≤ 6 := by
    intro l
    induction l with
    | nil => intro st h; exact h
    | cons op rest ih =>
      intro st _
      apply ih
      cases op with
      | setPower n => exact clampPower_mem n
      | incPower d => exact clampPower_mem _
      | decPower d => exact clampPower_mem _
  exact H ops storeTSInit (by norm_num [storeTSInit])

theorem dash_inv (ops : List DashOp) :
    (0 ≤ (dashRun ops).power ∧ (dashRun ops).power ≤ 6) ∧ 0 ≤ (dashRun ops).speed := by
  unfold dashRun
  have H : ∀ (l : List DashOp) (st : DashState),
      (0 ≤ st.power ∧ st.power ≤ 6) ∧ 0 ≤ st.speed →
      (0 ≤ (l.foldl applyDash st).power ∧ (l.foldl applyDash st).power ≤ 6) ∧
        0 ≤ (l.foldl applyDash st).speed := by
    intro l
    induction l with
    | nil => intro st h; exact h
    | cons op rest ih =>
      intro st hst
      apply ih
      have speed_nonneg : ∀ (s : DashState), 0 ≤ s.power → 0 ≤ (syncSpeed s).speed := by
        intro s hp
        have h : (0 : ℤ) ≤ ⌊s.power / 6 * 130 + 1 / 2⌋ := by
          apply Int.le_floor.mpr
          push_cast
          have h2 : 0 ≤ s.power / 6 * 130 := by positivity
          linarith
        simp only [syncSpeed, jsRound]
        exact_mod_cast h
      cases op with
      | inc s =>
        exact ⟨normalizePower_mem _, speed_nonneg _ (normalizePower_mem _).1⟩
      | dec s =>
        exact ⟨normalizePower_mem _, speed_nonneg _ (normalizePower_mem _).1⟩
      | setPower n =>
        exact ⟨normalizePower_mem _, speed_nonneg _ (normalizePower_mem _).1⟩
      | tick dt =>
        exact ⟨hst.1, hst.2⟩
  exact H ops dashInit (by norm_num [dashInit])

/-- C6: for every sequence of store operations (setPower, inc/incPower,
dec/decPower, with any rational arguments), the power field of both store
variants lies within [0, MAX_POWER] = [0, 6] after every assignment (the
final state of an arbitrary operation sequence, hence also every
intermediate state, since every prefix is itself a sequence). -/
theorem store_power_always_clamped (ops1 : List StoreTSOp) (ops2 : List DashOp) :
    (0 ≤ (storeTSRun ops1).power ∧ (storeTSRun ops1).power ≤ 6) ∧
      (0 ≤ (dashRun ops2).power ∧ (dashRun ops2).power ≤ 6) :=
  ⟨storeTS_inv ops1, (dash_inv ops2).1⟩

/-- C9: with the configuration min=0, max=130, startDeg=-220, endDeg=40,
both angle-mapping implementations send the value 65 to exactly -90
degrees, the midpoint of the sweep. -/
theorem angle_at_midpoint :
    mapSpeedToAngle 65 = -90 ∧ valueToAngleDeg 65 0 130 (-220) 40 = -90 := by
  constructor <;> norm_num [mapSpeedToAngle, valueToAngleDeg]

/-! ### The smoother recurrence (C1, C5) -/

/-- Closed form of the remaining distance: after `n` ticks the gap to the
target is `(1 - damping) ^ n` times the initial gap. -/
theorem smootherIter_remaining (target damping display : ℚ) (n : ℕ) :
    target - smootherIter target damping display n =
      (1 - damping) ^ n * (target - display) := by
  induction n with
  | zero => simp [smootherIter]
  | succ n ih =>
    have h : target - smootherStep target damping (smootherIter target damping display n)
        = (target - smootherIter target damping display n) * (1 - damping) := by
      unfold smootherStep; ring
    rw [smootherIter, h, ih, pow_succ]; ring

/-- C1: for every fixed target and every damping factor in (0,1],
repeatedly applying `display += (target - display) * damping` never
overshoots — the gap `target - display` keeps its sign and its absolute
value is non-increasing across ticks — and for every positive epsilon some
tick count brings the display within epsilon of the target. -/
theorem smoother_no_overshoot_and_converges (target display damping eps : ℚ)
    (hd0 : 0 < damping) (hd1 : damping ≤ 1) (heps : 0 < eps) :
    (∀ n, |target - smootherIter target damping display (n + 1)| ≤
        |target - smootherIter target damping display n|) ∧
    (∀ n, 0 ≤ (target - smootherIter target damping display n) * (target - display)) ∧
    (∃ N, |target - smootherIter target damping display N| < eps) := by
  have h1a : (0 : ℚ) ≤ 1 - damping := by linarith
  have h1b : (1 : ℚ) - damping < 1 := by linarith
  refine ⟨?_, ?_, ?_⟩
  · intro n
    rw [smootherIter_remaining, smootherIter_remaining]
    have h : |(1 - damping) ^ (n + 1) * (target - display)|
        = (1 - damping) * |(1 - damping) ^ n * (target - display)| := by
      rw [pow_succ, mul_comm ((1 - damping) ^ n) (1 - damping), mul_assoc, abs_mul,
        abs_of_nonneg h1a]
    rw [h]
    nlinarith [abs_nonneg ((1 - damping) ^ n * (target - display))]
  · intro n
    rw [smootherIter_remaining]
    have h := pow_nonneg h1a n
    nlinarith [sq_nonneg (target - display)]
  · by_cases hzero : target - display = 0
    · refine ⟨0, ?_⟩
      simp only [smootherIter]
      rw [hzero, abs_zero]
      exact heps
    · obtain ⟨N, hN⟩ :=
        exists_pow_lt_of_lt_one (div_pos heps (abs_pos.mpr hzero)) h1b
      refine ⟨N, ?_⟩
      rw [smootherIter_remaining, abs_mul, abs_of_nonneg (pow_nonneg h1a N)]
      have h := mul_lt_mul_of_pos_right hN (abs_pos.mpr hzero)
      rwa [div_mul_cancel₀ eps (ne_of_gt (abs_pos.mpr hzero))] at h

/-- Witness for C1: with target 1, display 0, damping 1/2, epsilon 1/10 the
hypotheses hold and the smoother converges to within epsilon. -/
theorem smoother_no_overshoot_and_converges_witness :
    (0 : ℚ) < 1 / 2 ∧ (1 / 2 : ℚ) ≤ 1 ∧ (0 : ℚ) < 1 / 10 ∧
    (∃ N, |(1 : ℚ) - smootherIter 1 (1 / 2) 0 N| < 1 / 10) :=
  ⟨by norm_num, by norm_num, by norm_num,
    (smoother_no_overshoot_and_converges 1 0 (1 / 2) (1 / 10) (by norm_num) (by norm_num)
      (by norm_num)).2.2⟩

/-! ### Angle mapping facts (C2, C9) -/

/-- The Speedometer components' fixed-range mapping agrees with the general
degree formula of `part_008` instantiated at min=0, max=130,
startDeg=-220, endDeg=40. -/
theorem mapSpeedToAngle_eq_general (v : ℚ) :
    mapSpeedToAngle v = valueToAngleDeg v 0 130 (-220) 40 := by
  unfold mapSpeedToAngle valueToAngleDeg
  have h130 : max (1 / 1000000 : ℚ) (130 - 0) = 130 := by norm_num
  rw [h130, sub_zero, sub_zero, sub_zero]
  rcases le_total v 0 with h | h
  · rw [max_eq_left h, min_eq_right (by norm_num : (0 : ℚ) ≤ 130),
      min_eq_right (by rw [div_le_one (by norm_num : (0:ℚ) < 130)]; linarith),
      max_eq_left (div_nonpos_of_nonpos_of_nonneg h (by norm_num))]
    ring
  · rcases le_total v 130 with h2 | h2
    · rw [max_eq_right h, min_eq_right h2,
        min_eq_right (by rw [div_le_one (by norm_num : (0:ℚ) < 130)]; linarith),
        max_eq_right (by positivity)]
      ring
    · rw [max_eq_right h, min_eq_left h2,
        min_eq_left ((one_le_div (by norm_num : (0:ℚ) < 130)).mpr h2),
        max_eq_right (by norm_num : (0:ℚ) ≤ 1)]
      norm_num

/-- C2: for every min < max, the angle mapping clamps the input to
[min, max] (the result at `v` equals the result at the clamped value),
returns an angle inside the closed interval between startDeg and endDeg
inclusive, is monotone nondecreasing in the value whenever
endDeg ≥ startDeg, and the Speedometer components' fixed-range map is the
general formula at its configuration. -/
theorem valueToAngle_clamped_bounded_monotone (mn mx s e v w : ℚ)
    (hrange : mn < mx) (hvw : v ≤ w) :
    valueToAngleDeg v mn mx s e = valueToAngleDeg (min mx (max mn v)) mn mx s e ∧
    (min s e ≤ valueToAngleDeg v mn mx s e ∧ valueToAngleDeg v mn mx s e ≤ max s e) ∧
    (s ≤ e → valueToAngleDeg v mn mx s e ≤ valueToAngleDeg w mn mx s e) ∧
    mapSpeedToAngle v = valueToAngleDeg v 0 130 (-220) 40 := by
  have hD : (0 : ℚ) < max (1 / 1000000) (mx - mn) :=
    lt_of_lt_of_le (by linarith) (le_max_right _ _)
  have hc1 : mn ≤ min mx (max mn v) := le_min hrange.le (le_max_left mn v)
  have hc2 : min mx (max mn v) ≤ mx := min_le_left mx _
  have hcd : min mx (max mn v) - mn ≤ max (1 / 1000000) (mx - mn) :=
    le_trans (by linarith) (le_max_right _ _)
  have ht0 : 0 ≤ (min mx (max mn v) - mn) / max (1 / 1000000) (mx - mn) :=
    div_nonneg (by linarith) hD.le
  have ht1 : (min mx (max mn v) - mn) / max (1 / 1000000) (mx - mn) ≤ 1 :=
    (div_le_one hD).mpr hcd
  refine ⟨?_, ?_, ?_, mapSpeedToAngle_eq_general v⟩
  · unfold valueToAngleDeg
    rw [max_eq_right hc1, min_eq_right hc2]
  · unfold valueToAngleDeg
    set t := (min mx (max mn v) - mn) / max (1 / 1000000) (mx - mn) with hT
    rcases le_total s e with hse | hes
    · rw [min_eq_left hse, max_eq_right hse]
      constructor <;> nlinarith
    · rw [min_eq_right hes, max_eq_left hes]
      constructor <;> nlinarith
  · intro hse
    unfold valueToAngleDeg
    have hcc : min mx (max mn v) ≤ min mx (max mn w) :=
      min_le_min le_rfl (max_le_max le_rfl hvw)
    have h1 : (min mx (max mn v) - mn) / max (1 / 1000000) (mx - mn) ≤
        (min mx (max mn w) - mn) / max (1 / 1000000) (mx - mn) := by
      apply div_le_div_of_nonneg_right ?_ hD.le
      linarith
    nlinarith

/-- Witness for C2 at min=0, max=130, startDeg=-220, endDeg=40, values 50
and 60. -/
theorem valueToAngle_clamped_bounded_monotone_witness :
    (0 : ℚ) < 130 ∧ (50 : ℚ) ≤ 60 ∧
    (min (-220 : ℚ) 40 ≤ valueToAngleDeg 50 0 130 (-220) 40 ∧
      valueToAngleDeg 50 0 130 (-220) 40 ≤ max (-220 : ℚ) 40) :=
  ⟨by norm_num, by norm_num,
    (valueToAngle_clamped_bounded_monotone 0 130 (-220) 40 50 60 (by norm_num)
      (by norm_num)).2.1⟩

/-- C5 counterexample: the EngineSpeedElement ticker callback has no
epsilon guard — from a state whose gap `|target - current|` is below an
epsilon of 1/100 it still moves the displayed angle and still issues its
two draw calls. -/
theorem converged_tick_still_redraws :
    |(1 / 1000 : ℚ) - 0| < 1 / 100 ∧
    (esTicker ⟨0, 1 / 1000, 0⟩).currentAngle ≠ 0 ∧
    (esTicker ⟨0, 1 / 1000, 0⟩).drawCalls ≠ 0 := by
  refine ⟨?_, ?_, ?_⟩
  · rw [sub_zero, abs_of_nonneg (by norm_num : (0:ℚ) ≤ 1 / 1000)]
    norm_num
  · show (0 : ℚ) + (1 / 1000 - 0) * esEase ≠ 0
    norm_num [esEase]
  · show 0 + 2 ≠ 0
    norm_num

/-- C5 amended: the epsilon-guarded tick of SpeedometerView is a strict
no-op whenever the display is converged (`|target - current| < epsilon`):
the state, including the draw-call count, is unchanged.  The
EngineSpeedElement ticker, by contrast, has no epsilon guard and performs
its two draw calls on every frame regardless of convergence. -/
theorem svTick_converged_is_noop (epsilon : ℚ) (st : SVState)
    (h : |st.target - st.current| < epsilon) :
    svTick epsilon st = st ∧
      ∀ st2 : ESTickState, (esTicker st2).drawCalls = st2.drawCalls + 2 := by
  constructor
  · unfold svTick
    rw [if_neg (not_lt.mpr h.le)]
  · intro st2
    rfl

/-- Witness for the amended C5 at epsilon 1 and a state with gap 1/2. -/
theorem svTick_converged_is_noop_witness :
    |(⟨0, 1 / 2, 0⟩ : SVState).target - (⟨0, 1 / 2, 0⟩ : SVState).current| < 1 ∧
    svTick 1 ⟨0, 1 / 2, 0⟩ = ⟨0, 1 / 2, 0⟩ :=
  ⟨by rw [show (⟨0, 1 / 2, 0⟩ : SVState).target - (⟨0, 1 / 2, 0⟩ : SVState).current
        = 1 / 2 by norm_num, abs_of_nonneg (by norm_num : (0:ℚ) ≤ 1 / 2)]; norm_num,
    (svTick_converged_is_noop 1 ⟨0, 1 / 2, 0⟩
      (by rw [show (⟨0, 1 / 2, 0⟩ : SVState).target - (⟨0, 1 / 2, 0⟩ : SVState).current
            = 1 / 2 by norm_num, abs_of_nonneg (by norm_num : (0:ℚ) ≤ 1 / 2)]
          norm_num)).1⟩

/-! ## The engine-power element's value paths (C3)

From `engine-power.element.ts`.  JavaScript numbers here must distinguish
NaN and the infinities, so values are a dedicated type `JSNum`. -/

/-- A JavaScript number as observable by the engine-power element's value
paths: a finite rational, NaN, or a signed infinity. -/
inductive JSNum where
  | nan
  | inf
  | ninf
  | fin (q : ℚ)
  deriving DecidableEq

/-- JavaScript `Number.isFinite`. -/
def JSNum.isFinite : JSNum → Bool
  | .fin _ => true
  | _ => false

/-- JavaScript `x || 0`: NaN (and 0 itself) fall through to 0, every other
number is kept — in particular the infinities are truthy and survive. -/
def JSNum.orZero : JSNum → JSNum
  | .nan => .fin 0
  | x => x

/-- JavaScript strict equality `===` on numbers: NaN equals nothing,
including itself; other numbers compare by value. -/
def JSNum.strictEq : JSNum → JSNum → Bool
  | .nan, _ => false
  | _, .nan => false
  | .inf, .inf => true
  | .ninf, .ninf => true
  | .fin a, .fin b => a == b
  | _, _ => false

/-- State of the EngingePowerElement: the stored `_power` and a count of
`render()` invocations. -/
structure EPState where
  _power : JSNum
  renders : ℕ
  deriving DecidableEq

/-- The `attributeChangedCallback` of `engine-power.element.ts` (lines
94-99): when the changed attribute is `power` and the old and new
attribute strings differ, it stores `Number(newV ?? 0) || 0` — the parse
of the new text with NaN coerced to 0 — and re-renders; otherwise it
returns without touching anything.  `namePower` is `name === "power"`,
`oldNeNew` is `oldV !== newV`, and `parsed` is `Number(newV ?? 0)`. -/
def attributeChangedCallback (st : EPState) (namePower oldNeNew : Bool)
    (parsed : JSNum) : EPState :=
  if namePower && oldNeNew then
    { _power := parsed.orZero, renders := st.renders + 1 }
  else st

/-- The `power` property setter of `engine-power.element.ts` (lines
105-109): `n = Number(v)`; non-finite `n` or `n === _power` returns
without effect; otherwise it reflects via `setAttribute("power",
String(n))`, which fires `attributeChangedCallback`.  The old and new
attribute strings always differ on this path: `_power` equals the numeric
reading of the current attribute text along every update path, so an
unchanged text would have meant `n === _power` and an early return. -/
def setPowerProp (st : EPState) (v : JSNum) : EPState :=
  if !v.isFinite || v.strictEq st._power then st
  else attributeChangedCallback st true true v

/-- C3 counterexample: with the stored power at 5, a `power` attribute
change whose new text parses to NaN (e.g. `setAttribute("power", "NaN")`)
is not rejected — the stored value becomes 0 and a re-render fires. -/
theorem nonfinite_attribute_not_rejected :
    (attributeChangedCallback ⟨.fin 5, 1⟩ true true .nan)._power ≠ JSNum.fin 5 ∧
    (attributeChangedCallback ⟨.fin 5, 1⟩ true true .nan).renders ≠ 1 := by
  refine ⟨?_, ?_⟩ <;> simp [attributeChangedCallback, JSNum.orZero]

/-- C3 amended: a non-finite value assigned through the property setter is
rejected — the state (stored target and render count) is unchanged.  A
non-finite value arriving through an attribute change is not rejected: it
triggers a re-render, with NaN coerced to 0 and the infinities stored
as-is. -/
theorem nonfinite_rejected_only_on_property_path (st : EPState) :
    setPowerProp st .nan = st ∧ setPowerProp st .inf = st ∧
      setPowerProp st .ninf = st ∧
    attributeChangedCallback st true true .nan = ⟨.fin 0, st.renders + 1⟩ ∧
    attributeChangedCallback st true true .inf = ⟨.inf, st.renders + 1⟩ ∧
    attributeChangedCallback st true true .ninf = ⟨.ninf, st.renders + 1⟩ := by
  refine ⟨?_, ?_, ?_, ?_, ?_, ?_⟩ <;>
    simp [setPowerProp, attributeChangedCallback, JSNum.isFinite, JSNum.orZero]

/-! ## Store-emission coalescing (C4)

From `#bindToStore` of `part_006` (lines 109-134): the MobX reaction
callback records the latest emitted value in `nextVal`, returns early on a
non-finite value or when a frame callback is already scheduled, and
otherwise schedules a single `requestAnimationFrame` callback that clears
the flag and calls `#setTargetFromSpeed(nextVal)`. -/

/-- The coalescing closure state of `#bindToStore`: the `scheduled` flag —
true exactly when a `requestAnimationFrame` callback is pending — and
`nextVal`, the latest value written by the reaction. -/
structure CoState where
  scheduled : Bool
  nextVal : JSNum
  deriving DecidableEq

/-- The reaction callback for one emission `v`: `nextVal = Number(v)` is
stored first; then a non-finite value returns, an already-set `scheduled`
flag returns, and otherwise the flag is set (the frame callback is
registered). -/
def emitSpeed (st : CoState) (v : JSNum) : CoState :=
  if !v.isFinite then { st with nextVal := v }
  else if st.scheduled then { st with nextVal := v }
  else { scheduled := true, nextVal := v }

/-- The animation-frame boundary: if a callback was scheduled it now runs,
clearing the flag and issuing exactly one `#setTargetFromSpeed(nextVal)`
call; otherwise nothing runs.  The second component lists the
`#setTargetFromSpeed` calls performed on this frame. -/
def frameFlush (st : CoState) : CoState × List JSNum :=
  if st.scheduled then ({ st with scheduled := false }, [st.nextVal])
  else (st, [])

/-- Once the frame callback is scheduled, further emissions only overwrite
`nextVal`; after any list of further emissions the state is scheduled with
`nextVal` the last of them. -/
theorem emitSpeed_foldl_scheduled (vs : List JSNum) (x : JSNum) :
    vs.foldl emitSpeed ⟨true, x⟩ = ⟨true, vs.getLastD x⟩ := by
  induction vs generalizing x with
  | nil => rfl
  | cons v rest ih =>
    have h : emitSpeed ⟨true, x⟩ v = ⟨true, v⟩ := by
      unfold emitSpeed
      by_cases hf : v.isFinite <;> simp [hf]
    rw [List.foldl_cons, h, ih, List.getLastD_cons]

/-- C4: starting from an idle coalescer (nothing scheduled), any nonempty
sequence of finite store emissions within one animation frame results in
exactly one `#setTargetFromSpeed` call at the next frame boundary, and
that call uses the last emitted value. -/
theorem store_emissions_coalesced (st0 : CoState) (vs : List JSNum)
    (h0 : st0.scheduled = false) (hne : vs ≠ [])
    (hfin : ∀ v ∈ vs, v.isFinite = true) :
    (frameFlush (vs.foldl emitSpeed st0)).2 = [vs.getLast hne] := by
  cases vs with
  | nil => exact absurd rfl hne
  | cons v rest =>
    have hv : v.isFinite = true := hfin v (List.mem_cons_self v rest)
    have h1 : emitSpeed st0 v = ⟨true, v⟩ := by
      unfold emitSpeed
      rw [hv, h0]
      simp
    rw [List.foldl_cons, h1, emitSpeed_foldl_scheduled,
      List.getLast_eq_getLastD]
    rfl

/-- Witness for C4: three synchronous emissions 10, 20, 30 produce exactly
one call, with value 30. -/
theorem store_emissions_coalesced_witness :
    (frameFlush ([JSNum.fin 10, JSNum.fin 20, JSNum.fin 30].foldl emitSpeed
        ⟨false, JSNum.fin 0⟩)).2
      = [([JSNum.fin 10, JSNum.fin 20, JSNum.fin 30]).getLast (by simp)] :=
  store_emissions_coalesced ⟨false, JSNum.fin 0⟩ _ rfl (by simp) (by simp [JSNum.isFinite])

/-! ## Instrument setup/teardown lifecycles (C7)

The React speedometer components (`Speedometer.tsx`,
`SpeedometerView.tsx`, `part_008`) guard their asynchronous Pixi setup
continuation with a `cancelled` flag set by the effect cleanup; the
continuation checks it immediately after the awaited `init` and, if set,
destroys the partially created Application and does nothing else.
`EngineSpeedElement` (`part_006` lines 63-90) has no such flag: its
`.then` continuation appends the canvas, builds and statically draws the
gauge, and registers a ticker callback unconditionally, even when
`disconnectedCallback` already ran. -/

/-- Lifecycle events: the asynchronous `init` promise resolving (the
continuation resumes), the instrument being unmounted/disconnected, and an
animation frame firing the ticker. -/
inductive LifeEvent where
  | initResolve
  | unmount
  | tickFrame
  deriving DecidableEq

/-- Lifecycle state of a React speedometer component: the `cancelled`
cleanup flag, whether cleanup ran (`disposed`), whether the awaited init
already resumed (`initDone`), whether a Pixi Application object is alive,
whether a ticker callback is registered, and how many draw calls were
issued after disposal. -/
structure SVLife where
  cancelled : Bool
  disposed : Bool
  initDone : Bool
  appAlive : Bool
  tickerActive : Bool
  postDisposalDraws : ℕ
  deriving DecidableEq

/-- Mounted state: the effect ran, `new Application()` was constructed
synchronously, `init` is in flight. -/
def svLifeInit : SVLife :=
  ⟨false, false, false, true, false, 0⟩

/-- One lifecycle step of the React component.  On `initResolve` the
continuation checks `cancelled`: if set it destroys the partial
Application and returns; otherwise it draws the scene and registers the
ticker.  On `unmount` the cleanup sets `cancelled`, stops the ticker and
destroys the app if init had completed.  On `tickFrame` an active ticker
issues its two draw calls. -/
def svLifeStep (st : SVLife) : LifeEvent → SVLife
  | .initResolve =>
    if st.initDone then st
    else if st.cancelled then { st with initDone := true, appAlive := false }
    else { st with
           initDone := true,
           tickerActive := true,
           postDisposalDraws := st.postDisposalDraws + (if st.disposed then 2 else 0) }
  | .unmount =>
    { st with
      cancelled := true,
      disposed := true,
      tickerActive := false,
      appAlive := if st.initDone then false else st.appAlive }
  | .tickFrame =>
    if st.tickerActive then
      { st with postDisposalDraws := st.postDisposalDraws + (if st.disposed then 2 else 0) }
    else st

/-- The React component lifecycle after a sequence of events from mount. -/
def svLifeRun (evs : List LifeEvent) : SVLife :=
  evs.foldl svLifeStep svLifeInit

/-- Lifecycle state of `EngineSpeedElement`: there is no cancellation
flag, so the state has none. -/
structure ESLife where
  disposed : Bool
  initDone : Bool
  appAlive : Bool
  tickerActive : Bool
  postDisposalDraws : ℕ
  deriving DecidableEq

/-- Connected state of `EngineSpeedElement`: `connectedCallback` ran,
`new Application()` exists, `init` is in flight. -/
def esLifeInit : ESLife := ⟨false, false, true, false, 0⟩

/-- One lifecycle step of `EngineSpeedElement`.  The `.then` continuation
performs its work unconditionally — it never consults any cancellation
state: it builds the gauge (static draw calls) and adds the ticker even
when the element was already disconnected.  `disconnectedCallback`
disposes the reaction and destroys the app. -/
def esLifeStep (st : ESLife) : LifeEvent → ESLife
  | .initResolve =>
    if st.initDone then st
    else { st with
           initDone := true,
           tickerActive := true,
           postDisposalDraws := st.postDisposalDraws + (if st.disposed then 2 else 0) }
  | .unmount =>
    { st with disposed := true, appAlive := false, tickerActive := false }
  | .tickFrame =>
    if st.tickerActive then
      { st with postDisposalDraws := st.postDisposalDraws + (if st.disposed then 2 else 0) }
    else st

/-- The `EngineSpeedElement` lifecycle after a sequence of events. -/
def esLifeRun (evs : List LifeEvent) : ESLife :=
  evs.foldl esLifeStep esLifeInit

/-- C7 counterexample: disconnecting `EngineSpeedElement` while its
asynchronous setup is in flight does not stop the setup continuation — it
resumes after disposal, issues its static draw calls, registers a ticker
callback, and subsequent frames keep invoking it: the post-disposal
invocation count is nonzero. -/
theorem disposal_mid_setup_unguarded :
    (esLifeRun [LifeEvent.unmount, LifeEvent.initResolve, LifeEvent.tickFrame]).disposed
      = true ∧
    (esLifeRun [LifeEvent.unmount, LifeEvent.initResolve, LifeEvent.tickFrame]).postDisposalDraws
      ≠ 0 ∧
    (esLifeRun [LifeEvent.unmount, LifeEvent.initResolve, LifeEvent.tickFrame]).tickerActive
      = true := by
  refine ⟨rfl, ?_, rfl⟩
  decide

/-- C7 amended: the React speedometer components are disposal-safe — for
every event sequence no draw call ever happens after disposal and no
ticker callback stays registered past disposal, and when unmount precedes
the init resolution the continuation finds `cancelled` set and destroys
the partially-created Application.  `EngineSpeedElement` has no
cancellation flag and violates each of these (see the counterexample). -/
theorem react_setup_cancellation_safe (evs : List LifeEvent) :
    (svLifeRun evs).postDisposalDraws = 0 ∧
    ((svLifeRun evs).disposed = true → (svLifeRun evs).tickerActive = false) ∧
    (svLifeRun [LifeEvent.unmount, LifeEvent.initResolve]).cancelled = true ∧
    (svLifeRun [LifeEvent.unmount, LifeEvent.initResolve]).appAlive = false := by
  have main : ∀ (l : List LifeEvent) (st : SVLife),
      (st.disposed = true → st.cancelled = true) ∧
        (st.disposed = true → st.tickerActive = false) ∧ st.postDisposalDraws = 0 →
      ((l.foldl svLifeStep st).disposed = true → (l.foldl svLifeStep st).cancelled = true) ∧
        ((l.foldl svLifeStep st).disposed = true →
          (l.foldl svLifeStep st).tickerActive = false) ∧
        (l.foldl svLifeStep st).postDisposalDraws = 0 := by
    intro l
    induction l with
    | nil => intro st h; exact h
    | cons ev rest ih =>
      intro st hst
      apply ih
      obtain ⟨h1, h2, h3⟩ := hst
      cases ev with
      | initResolve =>
        by_cases hid : st.initDone
        · simp only [svLifeStep, if_pos hid]
          exact ⟨h1, h2, h3⟩
        · by_cases hc : st.cancelled
          · simp only [svLifeStep, if_neg hid, if_pos hc]
            exact ⟨fun _ => hc, h2, h3⟩
          · have hd : st.disposed = false := by
              cases hdis : st.disposed
              · rfl
              · exact absurd (h1 hdis) (by simp [hc])
            simp only [svLifeStep, if_neg hid, if_neg hc, hd]
            refine ⟨fun h => absurd h (by simp [hd]), fun h => absurd h (by simp [hd]), by
              simp [h3]⟩
      | unmount =>
        exact ⟨by simp [svLifeStep], by simp [svLifeStep], by simp [svLifeStep, h3]⟩
      | tickFrame =>
        by_cases ht : st.tickerActive
        · have hd : st.disposed = false := by
            cases hdis : st.disposed
            · rfl
            · exact absurd (h2 hdis) (by simp [ht])
          simp only [svLifeStep, if_pos ht]
          exact ⟨h1, h2, by simp [hd, h3]⟩
        · simp only [svLifeStep, if_neg ht]
          exact ⟨h1, h2, h3⟩
  have base : (svLifeInit.disposed = true → svLifeInit.cancelled = true) ∧
      (svLifeInit.disposed = true → svLifeInit.tickerActive = false) ∧
      svLifeInit.postDisposalDraws = 0 := by
    refine ⟨?_, ?_, rfl⟩ <;> intro h <;> exact absurd h (by simp [svLifeInit])
  have res := main evs svLifeInit base
  exact ⟨res.2.2, res.2.1, rfl, rfl⟩

/-- Witness for the amended C7 on the unmount-during-setup trace. -/
theorem react_setup_cancellation_safe_witness :
    (svLifeRun [LifeEvent.unmount, LifeEvent.initResolve]).disposed = true ∧
    (svLifeRun [LifeEvent.unmount, LifeEvent.initResolve]).tickerActive = false :=
  ⟨rfl, (react_setup_cancellation_safe [LifeEvent.unmount, LifeEvent.initResolve]).2.1 rfl⟩

/-! ## Store subscription management (C8)

From `part_006`: `set store(s)` (lines 31-38) early-returns when the same
store object is assigned again, otherwise stores it and calls
`#bindToStore(s)`, which first runs `this.mobxDispose?.()` and clears the
handle before creating a new `reaction` (lines 109-134);
`disconnectedCallback` (lines 86-90) performs the same disposal.  Stores
and reaction disposers are identified by natural numbers; `active` lists
the not-yet-disposed reactions in creation order. -/

/-- Subscription-management state of an `EngineSpeedElement`. -/
structure SubState where
  _store : Option ℕ
  mobxDispose : Option ℕ
  active : List ℕ
  nextId : ℕ
  deriving DecidableEq

/-- `this.mobxDispose?.(); this.mobxDispose = undefined;` — dispose the
tracked reaction, if any, and clear the handle. -/
def disposeReaction (st : SubState) : SubState :=
  { st with
    active := match st.mobxDispose with
              | some i => st.active.erase i
              | none => st.active,
    mobxDispose := none }

/-- `#bindToStore(s)`: dispose the previous reaction first; when a store
is supplied, create a fresh reaction and track its disposer. -/
def bindToStore (st : SubState) (s : Option ℕ) : SubState :=
  match s with
  | none => disposeReaction st
  | some _ =>
    let st1 := disposeReaction st
    { st1 with
      active := st1.active ++ [st1.nextId],
      mobxDispose := some st1.nextId,
      nextId := st1.nextId + 1 }

/-- The `store` property setter: identical store assignment is a no-op;
otherwise store the reference and rebind. -/
def setStore (st : SubState) (s : Option ℕ) : SubState :=
  if s = st._store then st
  else bindToStore { st with _store := s } s

/-- The subscription-affecting operations on the element. -/
inductive SubOp where
  | set (s : Option ℕ)
  | disconnect

/-- One subscription operation application. -/
def applySub (st : SubState) : SubOp → SubState
  | .set s => setStore st s
  | .disconnect => disposeReaction st

/-- Fresh element: no store, no reaction. -/
def subInit : SubState := ⟨none, none, [], 0⟩

/-- The subscription state after a sequence of operations. -/
def subRun (ops : List SubOp) : SubState :=
  ops.foldl applySub subInit

/-- Disposal leaves no active reaction when the active list was exactly
the tracked one. -/
theorem disposeReaction_clears (st : SubState)
    (h : st.active = st.mobxDispose.toList) :
    (disposeReaction st).active = [] ∧ (disposeReaction st).mobxDispose = none := by
  refine ⟨?_, rfl⟩
  show (match st.mobxDispose with
        | some i => st.active.erase i
        | none => st.active) = []
  cases hm : st.mobxDispose with
  | none => rw [h, hm]; rfl
  | some i =>
    rw [h, hm]
    simp [Option.toList]

/-- The active reactions are always exactly the element's tracked
disposer: the element never holds more than one live subscription. -/
theorem subRun_active_eq (ops : List SubOp) :
    (subRun ops).active = (subRun ops).mobxDispose.toList := by
  unfold subRun
  have H : ∀ (l : List SubOp) (st : SubState), st.active = st.mobxDispose.toList →
      (l.foldl applySub st).active = (l.foldl applySub st).mobxDispose.toList := by
    intro l
    induction l with
    | nil => intro st h; exact h
    | cons op rest ih =>
      intro st h
      apply ih
      cases op with
      | disconnect =>
        show (disposeReaction st).active = (disposeReaction st).mobxDispose.toList
        rw [(disposeReaction_clears st h).1, (disposeReaction_clears st h).2]
        rfl
      | set s =>
        show (setStore st s).active = (setStore st s).mobxDispose.toList
        unfold setStore
        by_cases hs : s = st._store
        · rw [if_pos hs]; exact h
        · rw [if_neg hs]
          have h2 : ({ st with _store := s } : SubState).active
              = ({ st with _store := s } : SubState).mobxDispose.toList := h
          cases s with
          | none =>
            show (disposeReaction _).active = (disposeReaction _).mobxDispose.toList
            rw [(disposeReaction_clears _ h2).1, (disposeReaction_clears _ h2).2]
            rfl
          | some k =>
            show ((disposeReaction _).active ++ [_]) = Option.toList (some _)
            rw [(disposeReaction_clears _ h2).1]
            rfl
  exact H ops subInit rfl

/-- C8: at most one external-store subscription is ever active per
instrument — after any sequence of store assignments and disconnections
the list of live reactions has length at most one — and assigning the
currently-bound store object again is a complete no-op (no disposal, no
new subscription). -/
theorem single_active_subscription (ops : List SubOp) (st : SubState) :
    (subRun ops).active.length ≤ 1 ∧ setStore st st._store = st := by
  constructor
  · rw [subRun_active_eq ops]
    cases (subRun ops).mobxDispose <;> simp [Option.toList]
  · unfold setStore
    rw [if_pos rfl]

/-! ## The frame effect of DashboardStore.tick (C10) -/

/-- Ticks with nonnegative elapsed times never decrease distance and never
change speed, provided the starting speed is nonnegative. -/
theorem dash_ticks_monotone (dts : List ℚ) (st : DashState)
    (hl : ∀ d ∈ dts, 0 ≤ d) (hs : 0 ≤ st.speed) :
    st.distance ≤ ((dts.map DashOp.tick).foldl applyDash st).distance ∧
      ((dts.map DashOp.tick).foldl applyDash st).speed = st.speed := by
  induction dts generalizing st with
  | nil => exact ⟨le_refl _, rfl⟩
  | cons d rest ih =>
    have hd : 0 ≤ d := hl d (List.mem_cons_self d rest)
    have step : (applyDash st (.tick d)).distance
        = st.distance + st.speed * (d / 3600000) := rfl
    have stepSpeed : (applyDash st (.tick d)).speed = st.speed := rfl
    have h2 := ih (applyDash st (.tick d))
      (fun x hx => hl x (List.mem_cons_of_mem d hx)) (by rw [stepSpeed]; exact hs)
    simp only [List.map_cons, List.foldl_cons]
    refine ⟨?_, by rw [h2.2, stepSpeed]⟩
    calc st.distance ≤ (applyDash st (.tick d)).distance := by
          rw [step]
          nlinarith
      _ ≤ _ := h2.1

/-- C10: `tick(dtMs)` changes only the distance field — power and speed
are untouched on any state — and from any reachable store state (where
`syncSpeed` has kept speed nonnegative) a sequence of ticks with
nonnegative elapsed times never decreases distance. -/
theorem dash_tick_frame_effect (s : DashState) (dtMs : ℚ) (ops : List DashOp)
    (dts : List ℚ) (hdts : ∀ d ∈ dts, 0 ≤ d) :
    (applyDash s (.tick dtMs)).power = s.power ∧
    (applyDash s (.tick dtMs)).speed = s.speed ∧
    0 ≤ (dashRun ops).speed ∧
    (dashRun ops).distance ≤ ((dts.map DashOp.tick).foldl applyDash (dashRun ops)).distance :=
  ⟨rfl, rfl, (dash_inv ops).2,
    (dash_ticks_monotone dts (dashRun ops) hdts (dash_inv ops).2).1⟩

/-- Witness for C10: from the state reached by `setPower 3`, two ticks of
1000ms and 2000ms only grow the distance, and a tick leaves power and
speed alone. -/
theorem dash_tick_frame_effect_witness :
    (∀ d ∈ ([1000, 2000] : List ℚ), 0 ≤ d) ∧
    (applyDash ⟨5, 2, 7⟩ (.tick 100)).power = (⟨5, 2, 7⟩ : DashState).power ∧
    (applyDash ⟨5, 2, 7⟩ (.tick 100)).speed = (⟨5, 2, 7⟩ : DashState).speed ∧
    (dashRun [DashOp.setPower 3]).distance ≤
      ((([1000, 2000] : List ℚ).map DashOp.tick).foldl applyDash
        (dashRun [DashOp.setPower 3])).distance := by
  have hd : ∀ d ∈ ([1000, 2000] : List ℚ), 0 ≤ d := by
    intro d hdm
    rcases List.mem_cons.mp hdm with rfl | hdm
    · norm_num
    · rcases List.mem_cons.mp hdm with rfl | hdm
      · norm_num
      · exact absurd hdm (List.not_mem_nil d)
  have h := dash_tick_frame_effect ⟨5, 2, 7⟩ 100 [DashOp.setPower 3] [1000, 2000] hd
  exact ⟨hd, h.1, h.2.1, h.2.2.2⟩
